import Mathlib

/-!
Shallow embedding of `pr_analyzer` (src/pr_analyzer/analyzer.py):
the record normalizer `process_pr_data` and the monthly aggregator
`calculate_monthly_statistics`, together with the pieces of Python /
pandas semantics those two functions rely on.

Modelling conventions:
* A JSON mapping key that may be absent is an outer `Option`; a key that is
  present but bound to `null` is an inner `Option`.  `pr["k"]` on an absent
  key is a `KeyError`, embedded as `Except.error`.
* ISO-8601 timestamps are modelled by their parsed instant, as a count of
  seconds since the epoch (`Int`).  `datetime.fromisoformat(s.replace("Z",
  "+00:00")).astimezone(tz)` changes only the displayed offset, never the
  instant, so comparisons and subtraction act on the instant directly; the
  fixed offset `tz` (whole hours) matters only for the `month`/`year`
  fields derived from local wall-clock time.
* Exact arithmetic (`ℚ`) stands for Python floats: every claim below is
  about the algebraic relationship between computed values, not about
  rounding.
* A pandas `DataFrame` built from a list of mappings has as columns the
  union of the keys; built from an empty list it has no columns, and both
  `df["col"]` and `df.sort_values("col")` then raise `KeyError`.  A
  `DataFrame` is embedded as the list of its rows, and those two failure
  points are made explicit where `analyzer.py` hits them.
-/

namespace PrAnalyzer

/-- Size-field block of a raw PR record: `additions`, `deletions`,
`changedFiles`.  `analyzer.py` tests only `"additions" in pr` and then reads
all three, so the three keys are modelled as present together. -/
structure SizeRaw where
  additions : Int
  deletions : Int
  changedFiles : Int
  deriving Repr, DecidableEq

/-- A raw pull-request record as consumed by `process_pr_data`.
`author` and `mergedAt` distinguish key-absent (`none`) from key-present-
but-null (`some none`).  `createdAt`, `number`, `title`, `state` are the
mandatory fields, always read unconditionally by the source. -/
structure RawPR where
  number : Int
  title : String
  author : Option (Option String)
  createdAt : Int
  mergedAt : Option (Option Int)
  state : String
  sizes : Option SizeRaw
  deriving Repr, DecidableEq

/-- Normalized size fields: `additions`, `deletions`, `changed_files`,
`total_changes = additions + deletions` (analyzer.py lines 65-69). -/
structure SizeNorm where
  additions : Int
  deletions : Int
  changed_files : Int
  total_changes : Int
  deriving Repr, DecidableEq

/-- One row of the PR Table (the `pr_data` dict of analyzer.py lines
41-52, after the optional merge / size blocks). -/
structure NormRecord where
  number : Int
  title : String
  author : String
  created_at : Int
  merged_at : Option Int
  state : String
  month : String
  year : Int
  time_to_merge_hours : Option ℚ
  time_to_merge_days : Option ℚ
  sizes : Option SizeNorm
  deriving Repr, DecidableEq

/-! ### Calendar arithmetic for `strftime("%Y-%m")` / `.year`

`created_at.strftime("%Y-%m")` and `created_at.year` read the wall-clock
calendar date in the configured fixed-offset zone.  Local civil time is
`instant + 3600 * tz` seconds; the civil date follows from the day number
by the standard proleptic-Gregorian conversion (the algorithm below is the
classical era/year-of-era/day-of-year decomposition used by civil-time
libraries, with floor division where the day count may be negative). -/

/-- Year and month (1-12) of a day count relative to 1970-01-01. -/
def civilFromDays (z : Int) : Int × Nat :=
  let era : Int := Int.fdiv (z + 719468) 146097
  let doe : Nat := (z + 719468 - era * 146097).toNat
  let yoe : Nat := (doe - doe / 1460 + doe / 36524 - doe / 146096) / 365
  let y : Int := (yoe : Int) + era * 400
  let doy : Nat := doe - (365 * yoe + yoe / 4 - yoe / 100)
  let mp : Nat := (5 * doy + 2) / 153
  let m : Nat := if mp < 10 then mp + 3 else mp - 9
  (if m ≤ 2 then y + 1 else y, m)

/-- Two-digit zero padding, as `%m` produces. -/
def pad2 (n : Nat) : String :=
  if n < 10 then "0" ++ toString n else toString n

/-- Day number of an instant in the fixed-offset zone `tz` (hours). -/
def localDays (tz t : Int) : Int :=
  Int.fdiv (t + tz * 3600) 86400

/-- `created_at.strftime("%Y-%m")` in zone `tz`. -/
def monthOf (tz t : Int) : String :=
  let ym := civilFromDays (localDays tz t)
  toString ym.1 ++ "-" ++ pad2 ym.2

/-- `created_at.year` in zone `tz`. -/
def yearOf (tz t : Int) : Int :=
  (civilFromDays (localDays tz t)).1

/-- The date-range inclusion test of analyzer.py lines 38-40:
`(cutoff_date is None or created_at >= cutoff_date) and (end_date is None
or created_at <= end_date)`.  Aware-datetime comparison compares
instants, so the zone plays no role here. -/
def passesFilter (cutoff endd : Option Int) (pr : RawPR) : Bool :=
  (match cutoff with
   | none => true
   | some c => decide (c ≤ pr.createdAt)) &&
  (match endd with
   | none => true
   | some e => decide (pr.createdAt ≤ e))

/-- One iteration of the `for pr in prs` loop of `process_pr_data`
(analyzer.py lines 33-71): `Except.error` is a raised `KeyError`,
`.ok none` a record dropped by the date filter, `.ok (some rec)` a
record appended to `filtered_prs`. -/
def processOne (tz : Int) (cutoff endd : Option Int) (pr : RawPR) :
    Except String (Option NormRecord) :=
  if passesFilter cutoff endd pr then
    match pr.author with
    | none => .error "KeyError: author"
    | some authorVal =>
      let author := match authorVal with
        | some login => login
        | none => "unknown"
      match pr.mergedAt with
      | none => .error "KeyError: mergedAt"
      | some mergedVal =>
        let base : NormRecord :=
          { number := pr.number
            title := pr.title
            author := author
            created_at := pr.createdAt
            merged_at := none
            state := pr.state
            month := monthOf tz pr.createdAt
            year := yearOf tz pr.createdAt
            time_to_merge_hours := none
            time_to_merge_days := none
            sizes := pr.sizes.map fun s =>
              { additions := s.additions
                deletions := s.deletions
                changed_files := s.changedFiles
                total_changes := s.additions + s.deletions } }
        match mergedVal with
        | none => .ok (some base)
        | some m =>
          let hours : ℚ := ((m - pr.createdAt : Int) : ℚ) / 3600
          .ok (some { base with
            merged_at := some m
            time_to_merge_hours := some hours
            time_to_merge_days := some (hours / 24) })
  else
    .ok none

/-- The whole `for` loop: fail-fast on the first raised `KeyError`,
otherwise the kept records in input order. -/
def processAll (tz : Int) (cutoff endd : Option Int) :
    List RawPR → Except String (List NormRecord)
  | [] => .ok []
  | pr :: rest => do
    let r ← processOne tz cutoff endd pr
    let rs ← processAll tz cutoff endd rest
    pure (match r with
      | none => rs
      | some rec => rec :: rs)

/-- `process_pr_data` (analyzer.py lines 13-76).  After the loop the source
runs `df["created_at"] = pd.to_datetime(df["created_at"])`; when
`filtered_prs` is empty the frame has no columns and the lookup raises
`KeyError: created_at`, otherwise the column rewrite leaves the rows'
values unchanged under the instant model. -/
def process_pr_data (tz : Int) (cutoff endd : Option Int)
    (prs : List RawPR) : Except String (List NormRecord) := do
  let rows ← processAll tz cutoff endd prs
  if rows.isEmpty then .error "KeyError: created_at" else pure rows

/-! ### Monthly aggregation -/

/-- One row of the Monthly Table (the `stats` dict of analyzer.py lines
97-115).  The median fields use an outer `Option` for column presence
(`if "total_changes" in month_prs.columns`) and an inner `Option` for the
`NaN` a pandas median of zero non-null values produces. -/
structure MonthlyStat where
  month : String
  merged_pr_count : Nat
  avg_time_to_merge_hours : ℚ
  avg_time_to_merge_days : ℚ
  unique_authors : Nat
  avg_prs_per_person : ℚ
  median_total_changes : Option (Option ℚ)
  median_changed_files : Option (Option ℚ)
  deriving Repr, DecidableEq

/-- Helper for `uniqueFirst`: drop the values seen before. -/
def uniqueFirstAux (seen : List String) : List String → List String
  | [] => []
  | a :: l =>
    if a ∈ seen then uniqueFirstAux seen l
    else a :: uniqueFirstAux (a :: seen) l

/-- `Series.unique()`: distinct values in order of first appearance. -/
def uniqueFirst (l : List String) : List String :=
  uniqueFirstAux [] l

/-- `Series.median()` over the non-null values: midpoint of the sorted
list, averaging the two middle values for even counts; `NaN` (here
`none`) when no values remain. -/
def median (xs : List ℚ) : Option ℚ :=
  let s := List.insertionSort (· ≤ ·) xs
  let n := s.length
  if n = 0 then none
  else if n % 2 = 1 then some (s.getD (n / 2) 0)
  else some ((s.getD (n / 2 - 1) 0 + s.getD (n / 2) 0) / 2)

/-- `Series.mean()`: sum of the non-null values over their count (the
values handed to it below are all non-null). -/
def mean (xs : List ℚ) : ℚ :=
  xs.sum / (xs.length : ℚ)

/-- `"total_changes" in month_prs.columns`: a sliced frame keeps the parent
frame's columns, and a column exists iff some source mapping carried the
key, so this tests the whole input table. -/
def hasSizeCols (df : List NormRecord) : Bool :=
  df.any fun r => r.sizes.isSome

/-- The `stats` dict built for one month (analyzer.py lines 95-115),
from the merged subset `df_merged`; `hasSize` is
`"total_changes" in month_prs.columns`. -/
def monthStats (hasSize : Bool) (df_merged : List NormRecord)
    (month : String) : MonthlyStat :=
  let month_prs := df_merged.filter fun r => r.month = month
  let count := month_prs.length
  let avgH := mean (month_prs.filterMap fun r => r.time_to_merge_hours)
  let uniq := (month_prs.map fun r => r.author).dedup.length
  { month := month
    merged_pr_count := count
    avg_time_to_merge_hours := avgH
    avg_time_to_merge_days := avgH / 24
    unique_authors := uniq
    avg_prs_per_person :=
      if uniq > 0 then (count : ℚ) / (uniq : ℚ) else 0
    median_total_changes :=
      if hasSize then
        some (median (month_prs.filterMap fun r =>
          r.sizes.map fun s => (s.total_changes : ℚ)))
      else none
    median_changed_files :=
      if hasSize then
        some (median (month_prs.filterMap fun r =>
          r.sizes.map fun s => (s.changed_files : ℚ)))
      else none }

/-- Row order produced by `monthly_df.sort_values("month")`. -/
def monthLE (a b : MonthlyStat) : Prop := a.month ≤ b.month

instance : DecidableRel monthLE := fun a b =>
  inferInstanceAs (Decidable (a.month ≤ b.month))

instance : IsTotal MonthlyStat monthLE :=
  ⟨fun a b => le_total a.month b.month⟩

instance : IsTrans MonthlyStat monthLE :=
  ⟨fun _ _ _ h h' => le_trans h h'⟩

/-- `calculate_monthly_statistics` (analyzer.py lines 79-120).  On an
empty input table the frame has no columns and
`df["time_to_merge_days"]` raises; on an empty merged subset the loop
body never runs, `monthly_data` stays empty and
`pd.DataFrame({}.values()).sort_values("month")` raises.  Otherwise the
month keys are distinct, so sorting by month determines the row order
uniquely and any correct sort models `sort_values`. -/
def calculate_monthly_statistics (df : List NormRecord) :
    Except String (List MonthlyStat) :=
  if df.isEmpty then .error "KeyError: time_to_merge_days"
  else
    let df_merged := df.filter fun r => r.time_to_merge_days.isSome
    let months := uniqueFirst (df_merged.map fun r => r.month)
    let rows := months.map (monthStats (hasSizeCols df) df_merged)
    if rows.isEmpty then .error "KeyError: month"
    else .ok (List.insertionSort monthLE rows)

end PrAnalyzer

namespace PrAnalyzer

/-! ### Sample inputs for concrete evaluation -/

/-- A well-formed merged PR: author present, merged 5 hours after
creation, with size fields. -/
def samplePR : RawPR :=
  { number := 1
    title := "Add feature"
    author := some (some "alice")
    createdAt := 0
    mergedAt := some (some 18000)
    state := "MERGED"
    sizes := some { additions := 3, deletions := 4, changedFiles := 2 } }

/-- A PR whose `author` key is present but bound to `null`, unmerged. -/
def sampleNullAuthor : RawPR :=
  { number := 2
    title := "Fix bug"
    author := some none
    createdAt := 100
    mergedAt := some none
    state := "OPEN"
    sizes := none }

/-- A PR whose `author` key is entirely absent from the mapping. -/
def sampleNoAuthorKey : RawPR :=
  { number := 3
    title := "Refactor"
    author := none
    createdAt := 200
    mergedAt := some none
    state := "OPEN"
    sizes := none }

/-- A PR whose `mergedAt` key is entirely absent from the mapping. -/
def sampleNoMergedKey : RawPR :=
  { number := 4
    title := "Docs"
    author := some (some "bob")
    createdAt := 300
    mergedAt := none
    state := "OPEN"
    sizes := none }

/-- `samplePR`'s time to merge in hours, written as the normalizer
computes it ((18000 − 0) seconds / 3600); its value is 5. -/
def mergeHoursSample : ℚ := ((18000 - 0 : Int) : ℚ) / 3600

/-- The PR Table row `process_pr_data` produces for `samplePR`. -/
def sampleOut : NormRecord :=
  { number := 1
    title := "Add feature"
    author := "alice"
    created_at := 0
    merged_at := some 18000
    state := "MERGED"
    month := "1970-01"
    year := 1970
    time_to_merge_hours := some mergeHoursSample
    time_to_merge_days := some (mergeHoursSample / 24)
    sizes := some { additions := 3, deletions := 4, changed_files := 2,
                    total_changes := 7 } }

/-- The row `process_pr_data` produces for `sampleNullAuthor`. -/
def sampleNullAuthorOut : NormRecord :=
  { number := 2
    title := "Fix bug"
    author := "unknown"
    created_at := 100
    merged_at := none
    state := "OPEN"
    month := "1970-01"
    year := 1970
    time_to_merge_hours := none
    time_to_merge_days := none
    sizes := none }

/-- The Monthly Table row for the one-row table `[sampleOut]`, with the
averages written as the aggregator computes them (their values are 5,
5/24 and 1). -/
def sampleStat : MonthlyStat :=
  { month := "1970-01"
    merged_pr_count := 1
    avg_time_to_merge_hours := mean [mergeHoursSample]
    avg_time_to_merge_days := mean [mergeHoursSample] / 24
    unique_authors := 1
    avg_prs_per_person := ((1 : Nat) : ℚ) / ((1 : Nat) : ℚ)
    median_total_changes := some (some 7)
    median_changed_files := some (some 2) }

/-! ### Lemmas about the normalizer -/

theorem processOne_ok_none_iff (tz : Int) (c e : Option Int) (pr : RawPR) :
    processOne tz c e pr = .ok none ↔ passesFilter c e pr = false := by
  unfold processOne
  cases hf : passesFilter c e pr
  · simp
  · simp only [if_true]
    rcases pr.author with _ | aval
    · simp
    · rcases pr.mergedAt with _ | mval
      · simp
      · rcases mval with _ | m <;> simp

/-- Everything `processOne` guarantees about a kept record. -/
theorem processOne_ok_some_spec (tz : Int) (c e : Option Int) (pr : RawPR)
    (rec : NormRecord) (h : processOne tz c e pr = .ok (some rec)) :
    passesFilter c e pr = true ∧
    rec.number = pr.number ∧
    rec.title = pr.title ∧
    rec.created_at = pr.createdAt ∧
    rec.state = pr.state ∧
    rec.month = monthOf tz pr.createdAt ∧
    rec.year = yearOf tz pr.createdAt ∧
    rec.author = (match pr.author with
      | some (some login) => login
      | _ => "unknown") ∧
    rec.sizes = (pr.sizes.map fun s =>
      { additions := s.additions
        deletions := s.deletions
        changed_files := s.changedFiles
        total_changes := s.additions + s.deletions }) ∧
    (match pr.mergedAt with
      | some (some m) =>
          rec.merged_at = some m ∧
          rec.time_to_merge_hours =
            some (((m - pr.createdAt : Int) : ℚ) / 3600) ∧
          rec.time_to_merge_days =
            some ((((m - pr.createdAt : Int) : ℚ) / 3600) / 24)
      | _ =>
          rec.merged_at = none ∧
          rec.time_to_merge_hours = none ∧
          rec.time_to_merge_days = none) := by
  unfold processOne at h
  cases hf : passesFilter c e pr
  · rw [hf] at h; simp at h
  · rw [hf] at h
    simp only [if_true] at h
    rcases ha : pr.author with _ | aval
    · rw [ha] at h; simp at h
    · rw [ha] at h
      rcases hm : pr.mergedAt with _ | mval
      · rw [hm] at h; simp at h
      · rw [hm] at h
        rcases mval with _ | m
        · simp only [Except.ok.injEq, Option.some.injEq] at h
          subst h
          refine ⟨rfl, rfl, rfl, rfl, rfl, rfl, rfl, ?_, rfl, rfl, rfl, rfl⟩
          rcases aval with _ | login <;> rfl
        · simp only [Except.ok.injEq, Option.some.injEq] at h
          subst h
          refine ⟨rfl, rfl, rfl, rfl, rfl, rfl, rfl, ?_, rfl, rfl, rfl, rfl⟩
          rcases aval with _ | login <;> rfl

end PrAnalyzer

namespace PrAnalyzer

/-- The kept rows' `number` column is the filtered input's, in order. -/
theorem processAll_ok_numbers (tz : Int) (c e : Option Int) :
    ∀ (prs : List RawPR) (rows : List NormRecord),
      processAll tz c e prs = .ok rows →
      rows.map (fun r => r.number) =
        ((prs.filter fun pr => passesFilter c e pr).map fun pr => pr.number)
  | [], rows, h => by
      simp only [processAll] at h
      cases h
      rfl
  | pr :: rest, rows, h => by
      simp only [processAll, bind, Except.bind] at h
      cases h1 : processOne tz c e pr with
      | error msg => rw [h1] at h; cases h
      | ok r =>
        rw [h1] at h
        cases h2 : processAll tz c e rest with
        | error msg => rw [h2] at h; cases h
        | ok rs =>
          rw [h2] at h
          simp only [pure, Except.pure, Except.ok.injEq] at h
          have ih := processAll_ok_numbers tz c e rest rs h2
          cases r with
          | none =>
            have hf : passesFilter c e pr = false :=
              (processOne_ok_none_iff tz c e pr).mp h1
            subst h
            simp [List.filter_cons, hf, ih]
          | some rec =>
            have hs := processOne_ok_some_spec tz c e pr rec h1
            subst h
            simp [List.filter_cons, hs.1, hs.2.1, ih]

/-- Every row of a successful batch comes from `processOne` on some
input record. -/
theorem processAll_mem (tz : Int) (c e : Option Int) :
    ∀ (prs : List RawPR) (rows : List NormRecord),
      processAll tz c e prs = .ok rows →
      ∀ rec ∈ rows, ∃ pr ∈ prs, processOne tz c e pr = .ok (some rec)
  | [], rows, h => by
      simp only [processAll] at h
      cases h
      intro rec hrec
      cases hrec
  | pr :: rest, rows, h => by
      simp only [processAll, bind, Except.bind] at h
      cases h1 : processOne tz c e pr with
      | error msg => rw [h1] at h; cases h
      | ok r =>
        rw [h1] at h
        cases h2 : processAll tz c e rest with
        | error msg => rw [h2] at h; cases h
        | ok rs =>
          rw [h2] at h
          simp only [pure, Except.pure, Except.ok.injEq] at h
          have ih := processAll_mem tz c e rest rs h2
          intro rec hrec
          cases r with
          | none =>
            subst h
            obtain ⟨pr', hpr', hone⟩ := ih rec hrec
            exact ⟨pr', List.mem_cons_of_mem _ hpr', hone⟩
          | some rec' =>
            subst h
            rcases List.mem_cons.mp hrec with hrec | hrec
            · subst hrec
              exact ⟨pr, List.mem_cons_self _ _, h1⟩
            · obtain ⟨pr', hpr', hone⟩ := ih rec hrec
              exact ⟨pr', List.mem_cons_of_mem _ hpr', hone⟩

/-- A record on which the loop body raises makes the whole batch raise. -/
theorem processAll_error_of_mem (tz : Int) (c e : Option Int) :
    ∀ (prs : List RawPR) (pr : RawPR), pr ∈ prs →
      ∀ msg, processOne tz c e pr = .error msg →
      ∃ msg', processAll tz c e prs = .error msg'
  | [], pr, hm, msg, herr => absurd hm (List.not_mem_nil pr)
  | pr0 :: rest, pr, hm, msg, herr => by
      rcases List.mem_cons.mp hm with hm | hm
      · subst hm
        exact ⟨msg, by simp only [processAll, bind, Except.bind, herr]⟩
      · simp only [processAll, bind, Except.bind]
        cases h1 : processOne tz c e pr0 with
        | error msg0 => exact ⟨msg0, rfl⟩
        | ok r =>
          obtain ⟨msg', hrest⟩ :=
            processAll_error_of_mem tz c e rest pr hm msg herr
          exact ⟨msg', by rw [hrest]⟩

end PrAnalyzer

namespace PrAnalyzer

theorem mem_uniqueFirstAux : ∀ (l seen : List String) (a : String),
    a ∈ uniqueFirstAux seen l ↔ a ∈ l ∧ a ∉ seen
  | [], seen, a => by simp [uniqueFirstAux]
  | b :: l, seen, a => by
      rw [uniqueFirstAux]
      by_cases hb : b ∈ seen
      · rw [if_pos hb, mem_uniqueFirstAux l seen a]
        constructor
        · exact fun ⟨h1, h2⟩ => ⟨List.mem_cons_of_mem _ h1, h2⟩
        · rintro ⟨h1, h2⟩
          rcases List.mem_cons.mp h1 with rfl | h1
          · exact absurd hb h2
          · exact ⟨h1, h2⟩
      · rw [if_neg hb]
        simp only [List.mem_cons, mem_uniqueFirstAux l (b :: seen) a]
        constructor
        · rintro (rfl | ⟨h1, h2⟩)
          · exact ⟨Or.inl rfl, hb⟩
          · exact ⟨Or.inr h1, fun hs => h2 (Or.inr hs)⟩
        · rintro ⟨h1, h2⟩
          by_cases hab : a = b
          · exact Or.inl hab
          · rcases h1 with rfl | h1
            · exact Or.inl rfl
            · exact Or.inr ⟨h1, fun hs => hs.elim hab h2⟩

/-- `Series.unique()` keeps exactly the values of the series. -/
theorem mem_uniqueFirst (l : List String) (a : String) :
    a ∈ uniqueFirst l ↔ a ∈ l := by
  rw [uniqueFirst, mem_uniqueFirstAux]
  simp

/-- What a successful `calculate_monthly_statistics` run is made of. -/
theorem calculate_ok_spec (df : List NormRecord) (stats : List MonthlyStat)
    (h : calculate_monthly_statistics df = .ok stats) :
    stats = List.insertionSort monthLE
      ((uniqueFirst ((df.filter fun r => r.time_to_merge_days.isSome).map
          fun r => r.month)).map
        (monthStats (hasSizeCols df)
          (df.filter fun r => r.time_to_merge_days.isSome))) := by
  unfold calculate_monthly_statistics at h
  by_cases h1 : df.isEmpty
  · rw [if_pos h1] at h; cases h
  · rw [if_neg h1] at h
    by_cases h2 :
        ((uniqueFirst ((df.filter fun r => r.time_to_merge_days.isSome).map
            fun r => r.month)).map
          (monthStats (hasSizeCols df)
            (df.filter fun r => r.time_to_merge_days.isSome))).isEmpty
    · rw [if_pos h2] at h; cases h
    · rw [if_neg h2] at h
      cases h
      rfl

/-- Membership in a successful Monthly Table, reduced to `monthStats`. -/
theorem calculate_ok_mem (df : List NormRecord) (stats : List MonthlyStat)
    (h : calculate_monthly_statistics df = .ok stats)
    (row : MonthlyStat) (hrow : row ∈ stats) :
    ∃ m, m ∈ uniqueFirst ((df.filter fun r =>
        r.time_to_merge_days.isSome).map fun r => r.month) ∧
      row = monthStats (hasSizeCols df)
        (df.filter fun r => r.time_to_merge_days.isSome) m := by
  rw [calculate_ok_spec df stats h] at hrow
  have hperm := List.perm_insertionSort monthLE
    ((uniqueFirst ((df.filter fun r => r.time_to_merge_days.isSome).map
        fun r => r.month)).map
      (monthStats (hasSizeCols df)
        (df.filter fun r => r.time_to_merge_days.isSome)))
  have hmem := hperm.mem_iff.mp hrow
  obtain ⟨m, hm, heq⟩ := List.mem_map.mp hmem
  exact ⟨m, hm, heq.symm⟩

end PrAnalyzer

namespace PrAnalyzer

/-- C1: the spec requires that an empty input sequence, or one where the
date filter excludes every record, yields an empty PR Table without
failing.  The code instead raises: with `filtered_prs` empty the frame
has no `created_at` column and `df["created_at"]` raises `KeyError`, so
`process_pr_data` always fails on such inputs. -/
theorem C1_empty_result_raises (tz : Int) (c e : Option Int)
    (prs : List RawPR)
    (h : prs.filter (fun pr => passesFilter c e pr) = []) :
    ∃ msg, process_pr_data tz c e prs = .error msg := by
  unfold process_pr_data
  cases hA : processAll tz c e prs with
  | error msg => exact ⟨msg, by simp [bind, Except.bind, hA]⟩
  | ok rows =>
    have hnum := processAll_ok_numbers tz c e prs rows hA
    rw [h] at hnum
    simp only [List.map_nil, List.map_eq_nil_iff] at hnum
    subst hnum
    exact ⟨"KeyError: created_at", by simp [bind, Except.bind, hA]⟩

/-- C1 witness: the fully concrete empty call fails. -/
theorem C1_witness : ∃ msg, process_pr_data 9 none none [] = .error msg :=
  C1_empty_result_raises 9 none none [] rfl

/-- C2: the spec requires that an empty merged subset (in particular an
empty PR Table) yields an empty Monthly Table without failing.  The code
instead raises: on an empty table `df["time_to_merge_days"]` raises
`KeyError`, and on a non-empty table with no merged rows the loop never
runs and `sort_values("month")` raises `KeyError` on the column-less
empty frame. -/
theorem C2_empty_merged_raises (df : List NormRecord)
    (h : df.filter (fun r => r.time_to_merge_days.isSome) = []) :
    ∃ msg, calculate_monthly_statistics df = .error msg := by
  unfold calculate_monthly_statistics
  by_cases h1 : df.isEmpty
  · exact ⟨"KeyError: time_to_merge_days", by rw [if_pos h1]⟩
  · exact ⟨"KeyError: month", by simp [h1, h, uniqueFirst, uniqueFirstAux]⟩

/-- C2 witness: the fully concrete empty call fails. -/
theorem C2_witness : ∃ msg, calculate_monthly_statistics [] = .error msg :=
  C2_empty_merged_raises [] rfl

/-- C3 counterexample: the claim says a record whose `author` key is
absent is normalized with author `"unknown"` and no failure; on such a
record the code raises `KeyError` instead. -/
theorem C3_counterexample :
    process_pr_data 9 none none [sampleNoAuthorKey] =
      .error "KeyError: author" := rfl

/-- C3 amended: a record whose `author` key is present with a null value
is normalized with author `"unknown"` and no failure; a record whose
`author` key is entirely absent makes normalization raise a key-lookup
error (when it passes the date filter). -/
theorem C3_amended_author_handling (tz : Int) (c e : Option Int)
    (pr : RawPR) :
    (∀ rec : NormRecord, processOne tz c e pr = .ok (some rec) →
      pr.author = some none → rec.author = "unknown") ∧
    (pr.author = none → passesFilter c e pr = true →
      processOne tz c e pr = .error "KeyError: author") := by
  constructor
  · intro rec hrec hnull
    have hs := processOne_ok_some_spec tz c e pr rec hrec
    rw [hs.2.2.2.2.2.2.2.1, hnull]
  · intro hnone hf
    simp [processOne, hf, hnone]

/-- C3 amended witness: concrete null-author and absent-author records. -/
theorem C3_amended_witness :
    sampleNullAuthorOut.author = "unknown" ∧
    processOne 9 none none sampleNoAuthorKey = .error "KeyError: author" :=
  ⟨(C3_amended_author_handling 9 none none sampleNullAuthor).1
      sampleNullAuthorOut rfl rfl,
   (C3_amended_author_handling 9 none none sampleNoAuthorKey).2 rfl rfl⟩

/-- C4: any raw record that passes the date filter but whose `mergedAt`
key is entirely absent makes `process_pr_data` raise for the whole
batch (`pr["mergedAt"]` is read unconditionally on kept records). -/
theorem C4_absent_mergedAt_key_fails (tz : Int) (c e : Option Int)
    (prs : List RawPR) (pr : RawPR) (hm : pr ∈ prs)
    (hf : passesFilter c e pr = true) (hkey : pr.mergedAt = none) :
    ∃ msg, process_pr_data tz c e prs = .error msg := by
  have hone : ∃ msg, processOne tz c e pr = .error msg := by
    rcases ha : pr.author with _ | aval
    · exact ⟨"KeyError: author", by simp [processOne, hf, ha]⟩
    · exact ⟨"KeyError: mergedAt", by simp [processOne, hf, ha, hkey]⟩
  obtain ⟨msg, hone⟩ := hone
  obtain ⟨msg', hall⟩ := processAll_error_of_mem tz c e prs pr hm msg hone
  exact ⟨msg', by simp [process_pr_data, bind, Except.bind, hall]⟩

/-- C4 witness: a concrete batch with one `mergedAt`-less record fails. -/
theorem C4_witness :
    ∃ msg, process_pr_data 9 none none [sampleNoMergedKey] = .error msg :=
  C4_absent_mergedAt_key_fails 9 none none [sampleNoMergedKey]
    sampleNoMergedKey (List.mem_singleton.mpr rfl) rfl rfl

end PrAnalyzer

namespace PrAnalyzer

/-- A successful `process_pr_data` run is a successful loop with at
least one kept row. -/
theorem process_pr_data_ok (tz : Int) (c e : Option Int)
    (prs : List RawPR) (rows : List NormRecord)
    (h : process_pr_data tz c e prs = .ok rows) :
    processAll tz c e prs = .ok rows ∧ rows ≠ [] := by
  unfold process_pr_data at h
  cases hA : processAll tz c e prs with
  | error msg => rw [hA] at h; cases h
  | ok rows' =>
    rw [hA] at h
    simp only [bind, Except.bind] at h
    by_cases hmt : rows'.isEmpty
    · rw [if_pos hmt] at h; cases h
    · rw [if_neg hmt] at h
      simp only [pure, Except.pure, Except.ok.injEq] at h
      subst h
      exact ⟨rfl, by simpa using hmt⟩

/-- The Boolean date filter, spelled as the spec spells it. -/
theorem passesFilter_true_iff (c e : Option Int) (pr : RawPR) :
    passesFilter c e pr = true ↔
      (∀ cd, c = some cd → cd ≤ pr.createdAt) ∧
      (∀ ed, e = some ed → pr.createdAt ≤ ed) := by
  unfold passesFilter
  rcases c with _ | cd <;> rcases e with _ | ed <;> simp

/-- C5: a raw record appears in the output PR Table iff it passes the
inclusive cutoff/end test on its creation instant; when both bounds are
absent every record appears; output order is input order. -/
theorem C5_date_filter (tz : Int) (c e : Option Int)
    (prs : List RawPR) (rows : List NormRecord)
    (h : process_pr_data tz c e prs = .ok rows) :
    (rows.map (fun r => r.number) =
      ((prs.filter fun pr => passesFilter c e pr).map fun pr => pr.number)) ∧
    (∀ rec ∈ rows,
      (∀ cd, c = some cd → cd ≤ rec.created_at) ∧
      (∀ ed, e = some ed → rec.created_at ≤ ed)) ∧
    (c = none → e = none →
      rows.map (fun r => r.number) = prs.map fun pr => pr.number) := by
  obtain ⟨hA, -⟩ := process_pr_data_ok tz c e prs rows h
  have hnum := processAll_ok_numbers tz c e prs rows hA
  refine ⟨hnum, ?_, ?_⟩
  · intro rec hrec
    obtain ⟨pr, -, hone⟩ := processAll_mem tz c e prs rows hA rec hrec
    have hs := processOne_ok_some_spec tz c e pr rec hone
    have hb := (passesFilter_true_iff c e pr).mp hs.1
    rw [hs.2.2.2.1]
    exact hb
  · intro hc he
    subst hc; subst he
    rw [hnum]
    congr 1
    exact List.filter_eq_self.mpr fun pr _ => rfl

/-- C5 witness: one record, no bounds. -/
theorem C5_witness :
    ([sampleOut].map (fun r => r.number) =
      (([samplePR].filter fun pr => passesFilter none none pr).map
        fun pr => pr.number)) ∧
    (∀ rec ∈ [sampleOut],
      (∀ cd, (none : Option Int) = some cd → cd ≤ rec.created_at) ∧
      (∀ ed, (none : Option Int) = some ed → rec.created_at ≤ ed)) ∧
    ((none : Option Int) = none → (none : Option Int) = none →
      [sampleOut].map (fun r => r.number) =
        [samplePR].map fun pr => pr.number) :=
  C5_date_filter 9 none none [samplePR] [sampleOut] rfl

/-- C6: in every produced row, `time_to_merge_hours` (and days) is null
iff `merged_at` is null; when present, hours is the elapsed seconds over
3600 and days is hours over 24, exactly. -/
theorem C6_time_to_merge (tz : Int) (c e : Option Int)
    (prs : List RawPR) (rows : List NormRecord)
    (h : process_pr_data tz c e prs = .ok rows) :
    ∀ rec ∈ rows,
      (rec.time_to_merge_hours.isSome ↔ rec.merged_at.isSome) ∧
      (rec.time_to_merge_days.isSome ↔ rec.merged_at.isSome) ∧
      (∀ m : Int, rec.merged_at = some m →
        rec.time_to_merge_hours =
          some (((m - rec.created_at : Int) : ℚ) / 3600)) ∧
      (∀ hq : ℚ, rec.time_to_merge_hours = some hq →
        rec.time_to_merge_days = some (hq / 24)) := by
  intro rec hrec
  obtain ⟨hA, -⟩ := process_pr_data_ok tz c e prs rows h
  obtain ⟨pr, -, hone⟩ := processAll_mem tz c e prs rows hA rec hrec
  have hs := processOne_ok_some_spec tz c e pr rec hone
  obtain ⟨-, -, -, hca, -, -, -, -, -, hmerge⟩ := hs
  rcases hm : pr.mergedAt with _ | mval
  · rw [hm] at hmerge
    obtain ⟨h1, h2, h3⟩ := hmerge
    rw [h1, h2, h3]
    simp
  · rcases mval with _ | m'
    · rw [hm] at hmerge
      obtain ⟨h1, h2, h3⟩ := hmerge
      rw [h1, h2, h3]
      simp
    · rw [hm] at hmerge
      obtain ⟨h1, h2, h3⟩ := hmerge
      rw [h1, h2, h3, hca]
      refine ⟨by simp, by simp, ?_, ?_⟩
      · intro m hmm
        cases hmm
        rfl
      · intro hq hqq
        rw [Option.some_inj] at hqq
        rw [hqq]

/-- C6 witness: the concrete merged record (5 hours, 5/24 days). -/
theorem C6_witness :
    sampleOut.time_to_merge_hours =
      some (((18000 - sampleOut.created_at : Int) : ℚ) / 3600) ∧
    sampleOut.time_to_merge_days = some (mergeHoursSample / 24) := by
  have h := C6_time_to_merge 9 none none [samplePR] [sampleOut] rfl
    sampleOut (List.mem_singleton.mpr rfl)
  exact ⟨h.2.2.1 18000 rfl, h.2.2.2 mergeHoursSample rfl⟩

end PrAnalyzer

namespace PrAnalyzer

/-- The division guard, read off the `stats` dict construction. -/
theorem monthStats_avg_pp (hs : Bool) (dfm : List NormRecord) (m : String) :
    (monthStats hs dfm m).avg_prs_per_person =
      if 0 < (monthStats hs dfm m).unique_authors then
        ((monthStats hs dfm m).merged_pr_count : ℚ) /
          ((monthStats hs dfm m).unique_authors : ℚ)
      else 0 := rfl

theorem monthStats_avg_pp_nonneg (hs : Bool) (dfm : List NormRecord)
    (m : String) : 0 ≤ (monthStats hs dfm m).avg_prs_per_person := by
  rw [monthStats_avg_pp]
  split
  · exact div_nonneg (Nat.cast_nonneg _) (Nat.cast_nonneg _)
  · exact le_refl 0

/-- C7: every Monthly Table row satisfies the guarded-division contract
for `avg_prs_per_person`: count over distinct authors when the latter is
positive, 0 otherwise; in the exact-arithmetic model the value is always
a defined, non-negative rational (never NaN/undefined). -/
theorem C7_avg_prs_per_person (df : List NormRecord)
    (stats : List MonthlyStat)
    (h : calculate_monthly_statistics df = .ok stats) :
    ∀ row ∈ stats,
      row.avg_prs_per_person =
        (if 0 < row.unique_authors then
          (row.merged_pr_count : ℚ) / (row.unique_authors : ℚ)
        else 0) ∧
      0 ≤ row.avg_prs_per_person := by
  intro row hrow
  obtain ⟨m, -, heq⟩ := calculate_ok_mem df stats h row hrow
  subst heq
  exact ⟨monthStats_avg_pp _ _ m, monthStats_avg_pp_nonneg _ _ m⟩

/-- C7 witness: the one-month concrete table. -/
theorem C7_witness :
    (sampleStat.avg_prs_per_person =
      (if 0 < sampleStat.unique_authors then
        (sampleStat.merged_pr_count : ℚ) / (sampleStat.unique_authors : ℚ)
      else 0)) ∧
    0 ≤ sampleStat.avg_prs_per_person :=
  C7_avg_prs_per_person [sampleOut] [sampleStat] rfl sampleStat
    (List.mem_singleton.mpr rfl)

/-- C8: no Monthly Table row has a zero merged-PR count, and a month
string appears as a row exactly when some record of the merged subset
(non-null `time_to_merge_days`) carries that month. -/
theorem C8_months_iff_merged (df : List NormRecord)
    (stats : List MonthlyStat)
    (h : calculate_monthly_statistics df = .ok stats) :
    (∀ row ∈ stats, 0 < row.merged_pr_count) ∧
    (∀ m : String,
      (∃ row ∈ stats, row.month = m) ↔
      ∃ rec ∈ df, rec.time_to_merge_days.isSome ∧ rec.month = m) := by
  have hstats := calculate_ok_spec df stats h
  have hperm := List.perm_insertionSort monthLE
    ((uniqueFirst ((df.filter fun r => r.time_to_merge_days.isSome).map
        fun r => r.month)).map
      (monthStats (hasSizeCols df)
        (df.filter fun r => r.time_to_merge_days.isSome)))
  constructor
  · intro row hrow
    obtain ⟨m, hm, heq⟩ := calculate_ok_mem df stats h row hrow
    subst heq
    obtain ⟨rec, hrec, hrecm⟩ := List.mem_map.mp
      ((mem_uniqueFirst _ m).mp hm)
    have hmem : rec ∈ (df.filter fun r =>
        r.time_to_merge_days.isSome).filter fun r => r.month = m := by
      rw [List.mem_filter]
      exact ⟨hrec, by simp [hrecm]⟩
    have hne := List.ne_nil_of_mem hmem
    simpa [monthStats] using List.length_pos.mpr hne
  · intro m
    constructor
    · rintro ⟨row, hrow, rfl⟩
      obtain ⟨m', hm', heq⟩ := calculate_ok_mem df stats h row hrow
      subst heq
      obtain ⟨rec, hrec, hrecm⟩ := List.mem_map.mp
        ((mem_uniqueFirst _ m').mp hm')
      rw [List.mem_filter] at hrec
      exact ⟨rec, hrec.1, by simpa using hrec.2, hrecm⟩
    · rintro ⟨rec, hrec, hdays, hmonth⟩
      have hrec' : rec ∈ df.filter fun r => r.time_to_merge_days.isSome := by
        rw [List.mem_filter]
        exact ⟨hrec, by simpa using hdays⟩
      have hm : m ∈ uniqueFirst ((df.filter fun r =>
          r.time_to_merge_days.isSome).map fun r => r.month) :=
        (mem_uniqueFirst _ m).mpr
          (List.mem_map.mpr ⟨rec, hrec', hmonth⟩)
      refine ⟨monthStats (hasSizeCols df)
        (df.filter fun r => r.time_to_merge_days.isSome) m, ?_, rfl⟩
      rw [hstats]
      exact hperm.symm.subset (List.mem_map_of_mem _ hm)

/-- C8 witness: the one-month concrete table. -/
theorem C8_witness :
    0 < sampleStat.merged_pr_count ∧
    (∃ row ∈ [sampleStat], row.month = "1970-01") :=
  have h := C8_months_iff_merged [sampleOut] [sampleStat] rfl
  ⟨h.1 sampleStat (List.mem_singleton.mpr rfl),
   (h.2 "1970-01").mpr ⟨sampleOut, List.mem_singleton.mpr rfl, rfl, rfl⟩⟩

/-- C9: the rows of any produced Monthly Table are in ascending
lexicographic order of their month strings. -/
theorem C9_sorted_by_month (df : List NormRecord)
    (stats : List MonthlyStat)
    (h : calculate_monthly_statistics df = .ok stats) :
    List.Sorted (fun a b : String => a ≤ b)
      (stats.map fun row => row.month) := by
  rw [calculate_ok_spec df stats h]
  have hs := List.sorted_insertionSort monthLE
    ((uniqueFirst ((df.filter fun r => r.time_to_merge_days.isSome).map
        fun r => r.month)).map
      (monthStats (hasSizeCols df)
        (df.filter fun r => r.time_to_merge_days.isSome)))
  refine List.pairwise_map.mpr ?_
  exact hs.imp fun hab => hab

/-- C9 witness: the one-month concrete table. -/
theorem C9_witness :
    List.Sorted (fun a b : String => a ≤ b)
      ([sampleStat].map fun row => row.month) :=
  C9_sorted_by_month [sampleOut] [sampleStat] rfl

/-- C10: the median is the standard statistical one (`[10,20,30,40] ↦ 25`,
`[10,20,30] ↦ 20`), and the median columns are present in a Monthly Table
row exactly when the input PR Table carries size fields, in which case
they are the medians over the month's merged subset. -/
theorem C10_median_fields (df : List NormRecord)
    (stats : List MonthlyStat)
    (h : calculate_monthly_statistics df = .ok stats) :
    median [10, 20, 30, 40] = some 25 ∧
    median [10, 20, 30] = some 20 ∧
    ∀ row ∈ stats,
      (row.median_total_changes.isSome ↔ hasSizeCols df = true) ∧
      (row.median_changed_files.isSome ↔ hasSizeCols df = true) ∧
      (hasSizeCols df = true →
        row.median_total_changes =
          some (median (((df.filter fun r =>
              r.time_to_merge_days.isSome).filter fun r =>
              r.month = row.month).filterMap fun r =>
              r.sizes.map fun s => (s.total_changes : ℚ))) ∧
        row.median_changed_files =
          some (median (((df.filter fun r =>
              r.time_to_merge_days.isSome).filter fun r =>
              r.month = row.month).filterMap fun r =>
              r.sizes.map fun s => (s.changed_files : ℚ)))) := by
  refine ⟨?_, ?_, ?_⟩
  · norm_num [median, List.insertionSort, List.orderedInsert, List.getD]
  · norm_num [median, List.insertionSort, List.orderedInsert, List.getD]
  · intro row hrow
    obtain ⟨m, -, heq⟩ := calculate_ok_mem df stats h row hrow
    subst heq
    cases hsz : hasSizeCols df
    · refine ⟨?_, ?_, ?_⟩ <;> simp [monthStats, hsz]
    · refine ⟨?_, ?_, ?_⟩ <;> simp [monthStats, hsz]

/-- C10 witness: the one-month concrete table with size fields. -/
theorem C10_witness :
    median [10, 20, 30, 40] = some 25 ∧
    median [10, 20, 30] = some 20 ∧
    (sampleStat.median_total_changes.isSome ↔
      hasSizeCols [sampleOut] = true) :=
  have h := C10_median_fields [sampleOut] [sampleStat] rfl
  ⟨h.1, h.2.1, (h.2.2 sampleStat (List.mem_singleton.mpr rfl)).1⟩

end PrAnalyzer
